import Mathlib

/-!
A verification development for the `hello_recruiter` repository
(`Me.py`, `system_prompt.py`): a persona-driven conversational agent built
around a tool-calling chat loop.

The Python source is shallowly embedded:

* Python `dict`/JSON values become the inductive `PyVal`; a JSON object
  (the shape of every tool-argument payload and error descriptor) is a
  `PyDict := List (String × PyVal)` association list.
* The OpenAI client is a boundary: a model completion is an oracle
  `model : Nat → Response` giving the response to the k-th request of a
  `chat` call, and the JSON decoder `json.loads` is an oracle
  `loads : String → Except String PyDict` (its `Except.error` carries the
  `JSONDecodeError` message; tool-call argument payloads are object-encoded
  per the API, so a successful decode is modelled as a `PyDict`).
* Exceptions become `Except` results: a tool callable is
  `ToolFn := PyDict → Except PyExc PyVal`, where `PyExc` records the
  exception class name and message; the completion endpoint's outcomes are
  the inductive `ApiOutcome` mirroring the `openai` exception classes that
  `Me.py` distinguishes.
* `time.sleep` and logging are effects with no data flow; the retry wrapper
  is modelled as returning, next to its result, the list of delays it slept.
* The `while True` loop of `Me.chat` terminates because each iteration that
  does not `break` increments `tool_turns` while `tool_turns` stays at most
  `max_tool_turns`; the embedding `chatLoop` recurses on that measure and
  additionally returns the trace of tool-turn counter values (one entry per
  loop iteration) and the list of tool-call rounds it dispatched, which the
  Python loop exhibits only through its log; `Me.chat` itself reads none of
  these traces.
-/

/-- Python/JSON values as passed between the orchestrator and the tools. -/
inductive PyVal where
  | null
  | bool (b : Bool)
  | num (n : Int)
  | str (s : String)
  | arr (elems : List PyVal)
  | obj (kvs : List (String × PyVal))

/-- A Python `dict` with string keys (a decoded JSON object). -/
abbrev PyDict : Type := List (String × PyVal)

/-- A raised Python exception: its class name and message. -/
structure PyExc where
  cls : String
  msg : String
deriving DecidableEq

/-- A tool callable from the registry: receives the keyword-argument dict,
returns a value or raises. -/
abbrev ToolFn : Type := PyDict → Except PyExc PyVal

mutual
/-- Model of `json.dumps` (as used on tool results before they are inserted
into the history). String escaping is elided: no theorem depends on the
rendered text of a tool-result message. -/
def dumps : PyVal → String
  | .null => "null"
  | .bool true => "true"
  | .bool false => "false"
  | .num n => toString n
  | .str s => "\"" ++ s ++ "\""
  | .arr elems => "[" ++ String.intercalate ", " (dumpsList elems) ++ "]"
  | .obj kvs => "\x7b" ++ String.intercalate ", " (dumpsObj kvs) ++ "\x7d"

def dumpsList : List PyVal → List String
  | [] => []
  | v :: vs => dumps v :: dumpsList vs

def dumpsObj : List (String × PyVal) → List String
  | [] => []
  | (k, v) :: kvs => ("\"" ++ k ++ "\": " ++ dumps v) :: dumpsObj kvs
end

/-- Source: `_safe_json_loads` (`Me.py` lines 32-37).
`json.loads(s) if s else {}` guarded by `except json.JSONDecodeError`:
the empty string short-circuits to the empty dict; a decode failure is
converted into an error-marker dict carrying the decoder's message and the
offending raw text. The Lean function is total: the embedded code never
raises. -/
def safe_json_loads (loads : String → Except String PyDict) (s : String) : PyDict :=
  if s = "" then []
  else
    match loads s with
    | .ok d => d
    | .error e => [("_error", PyVal.str ("Invalid JSON arguments: " ++ e)), ("_raw", PyVal.str s)]

/-- Source: `_call_tool` (`Me.py` lines 39-47).
`TOOL_REGISTRY.get(tool_name)` is the `registry` oracle (the registry keeps
only callables, so a hit is always callable). The kwargs expansion
`fn(**{k: v for k, v in arguments.items() if k != "_error"})` drops exactly
the `"_error"` key. A raise inside the `try` is caught and converted into a
failure pair; the Lean function is total: the embedded code never
propagates an exception. -/
def call_tool (registry : String → Option ToolFn) (tool_name : String)
    (arguments : PyDict) : Bool × PyVal :=
  match registry tool_name with
  | none => (false, PyVal.obj [("_error", PyVal.str ("Unknown tool: '" ++ tool_name ++ "'"))])
  | some fn =>
    match fn (arguments.filter (fun kv => kv.1 ≠ "_error")) with
    | .ok r => (true, r)
    | .error e =>
      (false, PyVal.obj [("_error",
        PyVal.str ("Tool '" ++ tool_name ++ "' failed: " ++ e.cls ++ ": " ++ e.msg))])

/-- A tool-invocation request inside an assistant message: `tc.id`,
`tc.function.name`, `tc.function.arguments` (raw JSON text). -/
structure ToolCallReq where
  id : String
  name : String
  arguments : String
deriving DecidableEq

/-- One choice of the completion endpoint (`response.choices[0]`): finish
reason, assistant text content (`None` collapses to `""`, as the source
applies `assistant_msg.content or ""` before content is ever read), and the
requested tool calls (`None` collapses to the empty list, as the source
applies `assistant_msg.tool_calls or []` / a truthiness test). -/
structure Response where
  finish : String
  content : String
  tool_calls : List ToolCallReq
deriving DecidableEq

/-- The outcome of one attempt at `client.chat.completions.create`,
mirroring the exception classes `_retry_chat_create` distinguishes:
`RateLimitError` and `InternalServerError` (the transient pair caught
together), any other `APIError`, and any exception outside the `APIError`
hierarchy (caught by neither handler). -/
inductive ApiOutcome where
  | ok (r : Response)
  | rateLimitErr (msg : String)
  | internalServerErr (msg : String)
  | otherApiErr (msg : String)
  | otherExc (cls msg : String)
deriving DecidableEq

/-- The transient failure class: exactly what
`except (RateLimitError, InternalServerError)` catches. -/
def ApiOutcome.isTransient : ApiOutcome → Bool
  | .rateLimitErr _ => true
  | .internalServerErr _ => true
  | _ => false

/-- Re-raising semantics of an attempt outside any `try`: a non-`ok`
outcome propagates to the caller. -/
def ApiOutcome.toExcept : ApiOutcome → Except ApiOutcome Response
  | .ok r => Except.ok r
  | o => Except.error o

/-- The fixed backoff schedule `delays = [0.5, 1.0, 2.0, 4.0]` of
`_retry_chat_create`, in milliseconds (seconds are scaled by 1000 to stay
in `Nat`; the schedule is data, never computed with). -/
def retryDelays : List Nat := [500, 1000, 2000, 4000]

/-- The `for d in delays` loop of `_retry_chat_create`, from a given
attempt index: try the attempt; on success return it; on a transient error
sleep `d` (recorded in the returned delay list) and move to the next
scheduled attempt; on any other exception propagate with no further
delay. After the schedule, one final attempt runs outside the `try`.
Returns the propagated result together with the list of delays slept. -/
def retryFrom (att : Nat → ApiOutcome) : List Nat → Nat → Except ApiOutcome Response × List Nat
  | [], i => ((att i).toExcept, [])
  | d :: ds, i =>
    match att i with
    | .ok r => (Except.ok r, [])
    | .rateLimitErr _ =>
      let rest := retryFrom att ds (i + 1)
      (rest.1, d :: rest.2)
    | .internalServerErr _ =>
      let rest := retryFrom att ds (i + 1)
      (rest.1, d :: rest.2)
    | .otherApiErr m => (Except.error (ApiOutcome.otherApiErr m), [])
    | .otherExc c m => (Except.error (ApiOutcome.otherExc c m), [])

/-- Source: `_retry_chat_create` (`Me.py` lines 49-67). The request
parameters (`client`, `**kwargs`) are fixed across attempts, so the
attempt oracle `att` is indexed only by the attempt number. -/
def retry_chat_create (att : Nat → ApiOutcome) : Except ApiOutcome Response × List Nat :=
  retryFrom att retryDelays 0

/-- Characters `textwrap.dedent` counts as indentation (`[ \t]`). -/
def isIndentChar (c : Char) : Bool := c = ' ' || c = '\t'

/-- Whitespace for `str.strip()`, restricted to the ASCII whitespace
characters (every string a theorem below evaluates on is ASCII). -/
def isPyWs (c : Char) : Bool :=
  c = ' ' || c = '\t' || c = '\n' || c = '\r' || c = '\x0b' || c = '\x0c'

/-- Model of `str.strip()` with no argument. -/
def pyStrip (s : String) : String :=
  ⟨((s.toList.dropWhile isPyWs).reverse.dropWhile isPyWs).reverse⟩

/-- The lines of a Python string, in the sense of `'\n'.join` /
`re.MULTILINE` anchors. -/
def pyLines (s : String) : List String := s.splitOn "\n"

def commonPrefixList : List Char → List Char → List Char
  | a :: as, b :: bs => if a = b then a :: commonPrefixList as bs else []
  | _, _ => []

/-- Longest common prefix of two indentation strings (the net effect of the
margin-merging loop in `textwrap.dedent`). -/
def commonIndent (a b : String) : String := ⟨commonPrefixList a.toList b.toList⟩

def leadingIndent (l : String) : String := l.takeWhile isIndentChar

/-- The common margin of the non-empty lines (after whitespace-only lines
have been normalized to empty). -/
def dedentMargin (ls : List String) : String :=
  match ls.filter (fun l => l ≠ "") with
  | [] => ""
  | l :: rest => rest.foldl (fun m l2 => commonIndent m (leadingIndent l2)) (leadingIndent l)

/-- Model of `textwrap.dedent`: lines consisting solely of whitespace are
normalized to empty; the margin is the longest common leading whitespace of
the remaining non-empty lines; the margin is removed from the front of
every line that starts with it. -/
def dedent (text : String) : String :=
  let ls := (pyLines text).map (fun l => if l ≠ "" ∧ l.all isIndentChar then "" else l)
  let m := dedentMargin ls
  String.intercalate "\n" (ls.map (fun l => if m.isPrefixOf l then l.drop m.length else l))

/-- `kwargs.get(key, default)`: the keyword dict is an association list
with distinct keys, looked up by exact string equality. -/
def kwget (kwargs : List (String × String)) (k dflt : String) : String :=
  match kwargs.find? (fun kv => kv.1 == k) with
  | some kv => kv.2
  | none => dflt

/-- The f-string template of `system_prompt` (`system_prompt.py` lines
15-33), with the five interpolated values as arguments: the verbatim text
between `f"""` and `"""`, including the leading newline, the 8-space
source indentation and the trailing newline plus 4 spaces. -/
def promptTemplate (name summary linkedin unknown_tool contact_tool : String) : String :=
  "\n" ++
  "        You are acting as " ++ name ++ ". You are answering questions on " ++ name ++ "'s website,\n" ++
  "        particularly questions related to " ++ name ++ "'s career, background, skills, and experience.\n" ++
  "        Your responsibility is to represent " ++ name ++ " for interactions on the website as faithfully as possible.\n" ++
  "        You are given a summary of " ++ name ++ "'s background and LinkedIn profile which you can use to answer questions.\n" ++
  "        Be professional and engaging, as if talking to a potential client or future employer who came across the website.\n" ++
  "        If you don't know the answer to any question, use your " ++ unknown_tool ++ " tool to record the question that you couldn't answer,\n" ++
  "        even if it's about something trivial or unrelated to career.\n" ++
  "        If the user is engaging in discussion, try to steer them towards getting in touch via email; ask for their email and\n" ++
  "        record it using your " ++ contact_tool ++ " tool.\n" ++
  "\n" ++
  "        ## Summary:\n" ++
  "        " ++ summary ++ "\n" ++
  "\n" ++
  "        ## LinkedIn Profile:\n" ++
  "        " ++ linkedin ++ "\n" ++
  "\n" ++
  "        With this context, please chat with the user, always staying in character as " ++ name ++ ".\n" ++
  "    "

/-- Source: `system_prompt` (`system_prompt.py` lines 5-35): pure string
formatting, `dedent(f"""...""").strip()` over the template, with the five
`kwargs.get` lookups and their documented defaults. Total: it returns a
string on every keyword mapping, including the empty one. -/
def system_prompt (kwargs : List (String × String)) : String :=
  pyStrip (dedent (promptTemplate
    (kwget kwargs "name" "Unknown Person")
    (kwget kwargs "summary" "")
    (kwget kwargs "linkedin" "")
    (kwget kwargs "unknown_tool" "record_unknown_question")
    (kwget kwargs "contact_tool" "record_user_details")))

/-- A message dict in the conversation list: `role` and `content` always
present; `tool_calls` is the (possibly empty) list of tool-invocation
requests the source attaches to an assistant message exactly when the
response carried a non-empty one; `tool_call_id` is the correlation id on
a `"tool"` message (empty elsewhere, where the source omits the key). -/
structure Msg where
  role : String
  content : String
  tool_calls : List ToolCallReq
  tool_call_id : String
deriving DecidableEq

/-- The system message `{"role": "system", "content": self.system_prompt}`. -/
def systemMsg (systemPrompt : String) : Msg := ⟨"system", systemPrompt, [], ""⟩

/-- The new user message `{"role": "user", "content": message}`. -/
def userMsg (message : String) : Msg := ⟨"user", message, [], ""⟩

/-- The assistant message appended for a response (`Me.py` lines 130-134):
content is `assistant_msg.content or ""`, and the `tool_calls` key is
carried over exactly when the response requested tool calls. -/
def assistantMsgOf (r : Response) : Msg := ⟨"assistant", r.content, r.tool_calls, ""⟩

/-- Source: `Me.chat` lines 107-112: the message list assembled before the
loop, `[{"role": "system", ...}] + history + [{"role": "user", ...}]`. -/
def chatMessages (systemPrompt : String) (history : List Msg) (message : String) : List Msg :=
  (systemMsg systemPrompt :: history) ++ [userMsg message]

/-- Source: `Me._handle_tool_calls` (`Me.py` lines 77-93): for each
requested invocation, in order, parse the raw arguments, dispatch, and
build one `"tool"` message whose content is the serialized result (the
source's `result if ok else result` is `result` either way) tagged with
the originating invocation id. -/
def handle_tool_calls (loads : String → Except String PyDict)
    (registry : String → Option ToolFn) (tool_calls : List ToolCallReq) : List Msg :=
  tool_calls.map (fun tc =>
    let args := safe_json_loads loads tc.arguments
    let res := call_tool registry tc.name args
    ⟨"tool", dumps res.2, [], tc.id⟩)

/-- The test of the final backward scan of `Me.chat` (line 154): the
message has role `"assistant"` and `(msg.get("content") or "").strip()`
is truthy, i.e. the content has a non-whitespace character. -/
def scanHit (m : Msg) : Bool := m.role == "assistant" && pyStrip m.content != ""

/-- Source: `Me.chat` lines 153-156: scan the message list from the end
for the first message passing `scanHit` and return its content verbatim
(unstripped); return `""` if none exists. -/
def finalText (messages : List Msg) : String :=
  match messages.reverse.find? scanHit with
  | some m => m.content
  | none => ""

/-- Source: the `while True` loop of `Me.chat` (`Me.py` lines 116-149).
`model req` is the (successful) result of the retry-wrapped completion
request number `req` of this call; `tool_turns` is the tool-turn counter.
Returns the final message list together with two observations the Python
loop makes only through its control flow and log: the value of the counter
at the end of each iteration, and the tool-call rounds it actually passed
to `_handle_tool_calls`, in order. An iteration whose response signals
`"tool_calls"` increments the counter, and either stops (counter exceeds
the maximum — nothing dispatched) or dispatches the round and loops; any
other finish reason stops with the counter unchanged. -/
def chatLoop (max_tool_turns : Nat) (loads : String → Except String PyDict)
    (registry : String → Option ToolFn) (model : Nat → Response)
    (messages : List Msg) (tool_turns req : Nat) :
    List Msg × List Nat × List (List ToolCallReq) :=
  let r := model req
  let msgs := messages ++ [assistantMsgOf r]
  if r.finish = "tool_calls" then
    if _h : max_tool_turns < tool_turns + 1 then
      (msgs, [tool_turns + 1], [])
    else
      let rest := chatLoop max_tool_turns loads registry model
        (msgs ++ handle_tool_calls loads registry r.tool_calls) (tool_turns + 1) (req + 1)
      (rest.1, (tool_turns + 1) :: rest.2.1, r.tool_calls :: rest.2.2)
  else (msgs, [tool_turns], [])
termination_by max_tool_turns + 1 - tool_turns
decreasing_by omega

/-- The `max_tool_turns` default of `Me.__init__` (`Me.py` line 71). -/
def defaultMaxToolTurns : Nat := 8

/-- Source: `Me.chat` (`Me.py` lines 95-156). The loop starts with
`tool_turns = 0` on the assembled message list; the return value is the
backward scan `finalText` over the final list. `temperature` and the model
identifier are forwarded to the API unchanged and are absorbed by the
`model` oracle; `history=None` is `[]`. -/
def chat (max_tool_turns : Nat) (loads : String → Except String PyDict)
    (registry : String → Option ToolFn) (model : Nat → Response)
    (systemPrompt : String) (message : String) (history : List Msg) : String :=
  finalText (chatLoop max_tool_turns loads registry model
    (chatMessages systemPrompt history message) 0 0).1

theorem retryFrom_len (att : Nat → ApiOutcome) :
    ∀ ds i, (retryFrom att ds i).2.length ≤ ds.length := by
  intro ds
  induction ds with
  | nil => intro i; simp [retryFrom]
  | cons d ds ih =>
    intro i
    cases h : att i with
    | ok r => simp [retryFrom, h]
    | rateLimitErr m =>
      have := ih (i + 1)
      simp only [retryFrom, h, List.length_cons]
      omega
    | internalServerErr m =>
      have := ih (i + 1)
      simp only [retryFrom, h, List.length_cons]
      omega
    | otherApiErr m => simp [retryFrom, h]
    | otherExc c m => simp [retryFrom, h]

theorem retryFrom_all_transient (att : Nat → ApiOutcome) :
    ∀ ds i, (∀ j, j < ds.length → (att (i + j)).isTransient = true) →
      retryFrom att ds i = ((att (i + ds.length)).toExcept, ds) := by
  intro ds
  induction ds with
  | nil => intro i _; simp [retryFrom]
  | cons d ds ih =>
    intro i h
    have h0 : (att i).isTransient = true := by
      have := h 0 (by simp)
      simpa using this
    have hrest : retryFrom att ds (i + 1) = ((att (i + 1 + ds.length)).toExcept, ds) := by
      apply ih
      intro j hj
      have := h (j + 1) (by simp; omega)
      have harith : i + (j + 1) = i + 1 + j := by omega
      rwa [harith] at this
    have harith2 : i + 1 + ds.length = i + (d :: ds).length := by simp; omega
    cases hatt : att i with
    | ok r => rw [hatt] at h0; simp [ApiOutcome.isTransient] at h0
    | rateLimitErr m =>
      simp only [retryFrom, hatt, hrest, harith2]
    | internalServerErr m =>
      simp only [retryFrom, hatt, hrest, harith2]
    | otherApiErr m => rw [hatt] at h0; simp [ApiOutcome.isTransient] at h0
    | otherExc c m => rw [hatt] at h0; simp [ApiOutcome.isTransient] at h0

/-- C2: the retry wrapper uses the fixed schedule 0.5s, 1s, 2s, 4s (here in
milliseconds). Two transient failures then a success sleep exactly the
first two delays and return the successful response; a non-transient API
failure on the first attempt propagates with zero delays; at most 4 delays
(hence at most 5 attempts, one per delay plus the final one) ever happen;
and when the whole schedule is exhausted by transient failures, the fifth
attempt runs unguarded and its outcome, success or failure, is propagated
as is. The parameters of every re-attempt are fixed: `att` depends only on
the attempt number. -/
theorem retry_policy_spec (att : Nat → ApiOutcome) (r : Response) (m : String) :
    retryDelays = [500, 1000, 2000, 4000]
    ∧ ((att 0).isTransient = true → (att 1).isTransient = true →
        att 2 = ApiOutcome.ok r →
        retry_chat_create att = (Except.ok r, [500, 1000]))
    ∧ (att 0 = ApiOutcome.otherApiErr m →
        retry_chat_create att = (Except.error (ApiOutcome.otherApiErr m), []))
    ∧ (retry_chat_create att).2.length ≤ 4
    ∧ ((∀ i, i < 4 → (att i).isTransient = true) →
        retry_chat_create att = ((att 4).toExcept, [500, 1000, 2000, 4000])) := by
  refine ⟨rfl, ?_, ?_, ?_, ?_⟩
  · intro h0 h1 h2
    cases hatt0 : att 0 with
    | rateLimitErr m0 =>
      cases hatt1 : att 1 with
      | rateLimitErr m1 => simp [retry_chat_create, retryDelays, retryFrom, hatt0, hatt1, h2]
      | internalServerErr m1 => simp [retry_chat_create, retryDelays, retryFrom, hatt0, hatt1, h2]
      | ok r1 => rw [hatt1] at h1; simp [ApiOutcome.isTransient] at h1
      | otherApiErr m1 => rw [hatt1] at h1; simp [ApiOutcome.isTransient] at h1
      | otherExc c1 m1 => rw [hatt1] at h1; simp [ApiOutcome.isTransient] at h1
    | internalServerErr m0 =>
      cases hatt1 : att 1 with
      | rateLimitErr m1 => simp [retry_chat_create, retryDelays, retryFrom, hatt0, hatt1, h2]
      | internalServerErr m1 => simp [retry_chat_create, retryDelays, retryFrom, hatt0, hatt1, h2]
      | ok r1 => rw [hatt1] at h1; simp [ApiOutcome.isTransient] at h1
      | otherApiErr m1 => rw [hatt1] at h1; simp [ApiOutcome.isTransient] at h1
      | otherExc c1 m1 => rw [hatt1] at h1; simp [ApiOutcome.isTransient] at h1
    | ok r0 => rw [hatt0] at h0; simp [ApiOutcome.isTransient] at h0
    | otherApiErr m0 => rw [hatt0] at h0; simp [ApiOutcome.isTransient] at h0
    | otherExc c0 m0 => rw [hatt0] at h0; simp [ApiOutcome.isTransient] at h0
  · intro h0
    simp [retry_chat_create, retryDelays, retryFrom, h0]
  · exact retryFrom_len att retryDelays 0
  · intro h
    have := retryFrom_all_transient att retryDelays 0 (by
      intro j hj
      have := h j (by simpa [retryDelays] using hj)
      simpa using this)
    simpa [retryDelays] using this

/-- Witness for C2 at a concrete attempt oracle: two rate limits then a
success, and a non-transient failure, each with the delays observed. -/
theorem retry_policy_spec_witness :
    ((fun i => if i < 2 then ApiOutcome.rateLimitErr "rl"
               else ApiOutcome.ok ⟨"stop", "done", []⟩) 0).isTransient = true
    ∧ retry_chat_create (fun i => if i < 2 then ApiOutcome.rateLimitErr "rl"
        else ApiOutcome.ok ⟨"stop", "done", []⟩) =
        (Except.ok ⟨"stop", "done", []⟩, [500, 1000])
    ∧ retry_chat_create (fun _ => ApiOutcome.otherApiErr "boom") =
        (Except.error (ApiOutcome.otherApiErr "boom"), []) :=
  ⟨by decide,
   (retry_policy_spec (fun i => if i < 2 then ApiOutcome.rateLimitErr "rl"
      else ApiOutcome.ok ⟨"stop", "done", []⟩) ⟨"stop", "done", []⟩ "boom").2.1
     (by decide) (by decide) (by decide),
   (retry_policy_spec (fun _ => ApiOutcome.otherApiErr "boom")
      ⟨"stop", "done", []⟩ "boom").2.2.1 rfl⟩

/-- C3: the argument parser is total (the embedded `_safe_json_loads` is a
Lean function, so it never raises): the empty payload yields the empty
dict, and a payload the decoder rejects yields the error-marker dict
carrying the human-readable decode error and the original raw text. -/
theorem safe_json_loads_spec (loads : String → Except String PyDict) (s e : String) :
    (s = "" → safe_json_loads loads s = [])
    ∧ (s ≠ "" → loads s = Except.error e →
        safe_json_loads loads s =
          [("_error", PyVal.str ("Invalid JSON arguments: " ++ e)),
           ("_raw", PyVal.str s)]) := by
  constructor
  · intro h; simp [safe_json_loads, h]
  · intro hs he; simp [safe_json_loads, hs, he]

/-- A decode oracle failing the way `json.loads` fails on the non-JSON
text `"oops"`. -/
def failingLoads : String → Except String PyDict :=
  fun _ => Except.error "Expecting value: line 1 column 1 (char 0)"

/-- Witness for C3: the empty payload and a malformed payload, concretely. -/
theorem safe_json_loads_spec_witness :
    safe_json_loads failingLoads "" = []
    ∧ safe_json_loads failingLoads "oops" =
        [("_error", PyVal.str "Invalid JSON arguments: Expecting value: line 1 column 1 (char 0)"),
         ("_raw", PyVal.str "oops")] :=
  ⟨(safe_json_loads_spec failingLoads "" "x").1 rfl,
   (safe_json_loads_spec failingLoads "oops"
     "Expecting value: line 1 column 1 (char 0)").2 (by decide) rfl⟩

/-- C4: the dispatcher always returns a (success flag, payload) pair (the
embedded `_call_tool` is a total Lean function, so no exception ever
reaches its caller): an unknown name yields `false` with the error
descriptor containing the literal `Unknown tool: '<name>'` text, and a
known tool that raises yields `false` with a descriptor carrying the
exception's class and message. -/
theorem call_tool_spec (registry : String → Option ToolFn) (tool_name : String)
    (arguments : PyDict) (fn : ToolFn) (e : PyExc) :
    (registry tool_name = none →
      call_tool registry tool_name arguments =
        (false, PyVal.obj [("_error", PyVal.str ("Unknown tool: '" ++ tool_name ++ "'"))]))
    ∧ (registry tool_name = some fn →
        fn (arguments.filter (fun kv => kv.1 ≠ "_error")) = Except.error e →
        call_tool registry tool_name arguments =
          (false, PyVal.obj [("_error",
            PyVal.str ("Tool '" ++ tool_name ++ "' failed: " ++ e.cls ++ ": " ++ e.msg))])) := by
  constructor
  · intro h; simp [call_tool, h]
  · intro h hf
    simp only [ne_eq, decide_not] at hf
    simp [call_tool, h, hf]

/-- A tool that always raises `ValueError("bad input")`. -/
def raisingTool : ToolFn := fun _ => Except.error ⟨"ValueError", "bad input"⟩

/-- A registry holding only `raisingTool` under the name `"fragile"`. -/
def fragileRegistry : String → Option ToolFn :=
  fun n => if n = "fragile" then some raisingTool else none

/-- Witness for C4: an unknown name and a raising tool, concretely. -/
theorem call_tool_spec_witness :
    call_tool fragileRegistry "ghost" [] =
      (false, PyVal.obj [("_error", PyVal.str "Unknown tool: 'ghost'")])
    ∧ call_tool fragileRegistry "fragile" [] =
      (false, PyVal.obj [("_error", PyVal.str "Tool 'fragile' failed: ValueError: bad input")]) :=
  ⟨(call_tool_spec fragileRegistry "ghost" [] raisingTool ⟨"ValueError", "bad input"⟩).1 rfl,
   (call_tool_spec fragileRegistry "fragile" [] raisingTool ⟨"ValueError", "bad input"⟩).2 rfl rfl⟩

/-- An echo tool: returns the keyword-argument dict it received as its
result, making the dispatcher's filtering observable. -/
def echoTool : ToolFn := fun d => Except.ok (PyVal.obj d)

/-- A registry holding only `echoTool`, under the name `"echo"`. -/
def echoRegistry : String → Option ToolFn :=
  fun n => if n = "echo" then some echoTool else none

/-- C5 counterexample: on the malformed payload `"oops"` the parser
inserts both the `"_error"` and the `"_raw"` key, but dispatching the
resulting dict to the echo tool shows the tool receives the `"_raw"`
entry: the dispatcher excludes only `"_error"`, not every key inserted by
the failed parse, contradicting the claim. -/
theorem call_tool_passes_raw_counterexample :
    safe_json_loads failingLoads "oops" =
      [("_error", PyVal.str "Invalid JSON arguments: Expecting value: line 1 column 1 (char 0)"),
       ("_raw", PyVal.str "oops")]
    ∧ call_tool echoRegistry "echo" (safe_json_loads failingLoads "oops") =
      (true, PyVal.obj [("_raw", PyVal.str "oops")]) :=
  ⟨rfl, rfl⟩

/-- C5 amended: when the tool name is known, the dispatcher invokes the
registered callable with the argument mapping minus exactly the entries
keyed `"_error"`: every other entry is passed through as a named input —
including the `"_raw"` entry inserted by a failed parse — and no
`"_error"` entry is. Stated through the echo tool, which returns the dict
it was invoked with. -/
theorem call_tool_filters_only_error (tool_name : String) (args : PyDict) (v : PyVal)
    (hraw : ("_raw", v) ∈ args) :
    call_tool (fun n => if n = tool_name then some echoTool else none) tool_name args =
      (true, PyVal.obj (args.filter (fun kv => kv.1 ≠ "_error")))
    ∧ ("_raw", v) ∈ args.filter (fun kv => kv.1 ≠ "_error")
    ∧ ∀ w, ("_error", w) ∉ args.filter (fun kv => kv.1 ≠ "_error") := by
  refine ⟨?_, ?_, ?_⟩
  · simp [call_tool, echoTool]
  · exact List.mem_filter.mpr ⟨hraw, by simp⟩
  · intro w hw
    have := (List.mem_filter.mp hw).2
    simp at this

/-- Witness for the amended C5, at the dict produced by the failed parse
of `"oops"`. -/
theorem call_tool_filters_only_error_witness :
    (("_raw", PyVal.str "oops") ∈ safe_json_loads failingLoads "oops")
    ∧ call_tool (fun n => if n = "echo" then some echoTool else none) "echo"
        (safe_json_loads failingLoads "oops") =
      (true, PyVal.obj ((safe_json_loads failingLoads "oops").filter (fun kv => kv.1 ≠ "_error"))) :=
  ⟨by simp [safe_json_loads, failingLoads],
   (call_tool_filters_only_error "echo" (safe_json_loads failingLoads "oops") (PyVal.str "oops")
     (by simp [safe_json_loads, failingLoads])).1⟩

theorem kwget_eq_default (kwargs : List (String × String)) (k d : String)
    (h : kwargs.find? (fun kv => kv.1 == k) = none) : kwget kwargs k d = d := by
  simp [kwget, h]

theorem kwget_cons_hit (kwargs : List (String × String)) (k v d : String) :
    kwget ((k, v) :: kwargs) k d = v := by
  simp [kwget, List.find?]

theorem kwget_cons_miss (kwargs : List (String × String)) (k k' v d : String)
    (h : (k' == k) = false) : kwget ((k', v) :: kwargs) k d = kwget kwargs k d := by
  simp [kwget, List.find?, h]

/-- C9: the prompt builder is pure, total string formatting (the embedded
`system_prompt` is a Lean function of its keyword mapping alone, so it
always returns a string and has no side effects), and a keyword mapping
missing the optional fields produces exactly the prompt of the documented
defaults: `"Unknown Person"` for the name and the empty string for the
summary and the profile text. -/
theorem system_prompt_defaults (kwargs : List (String × String))
    (h1 : kwargs.find? (fun kv => kv.1 == "name") = none)
    (h2 : kwargs.find? (fun kv => kv.1 == "summary") = none)
    (h3 : kwargs.find? (fun kv => kv.1 == "linkedin") = none) :
    system_prompt kwargs =
      system_prompt (("name", "Unknown Person") :: ("summary", "") ::
        ("linkedin", "") :: kwargs) := by
  unfold system_prompt
  rw [kwget_eq_default _ _ _ h1, kwget_eq_default _ _ _ h2, kwget_eq_default _ _ _ h3]
  rw [kwget_cons_hit]
  rw [kwget_cons_miss _ _ _ _ _ (by decide), kwget_cons_hit]
  rw [kwget_cons_miss _ _ _ _ _ (by decide), kwget_cons_miss _ _ _ _ _ (by decide),
      kwget_cons_hit]
  rw [kwget_cons_miss _ _ _ _ _ (by decide), kwget_cons_miss _ _ _ _ _ (by decide),
      kwget_cons_miss _ _ _ _ _ (by decide)]
  rw [kwget_cons_miss _ _ _ _ _ (by decide), kwget_cons_miss _ _ _ _ _ (by decide),
      kwget_cons_miss _ _ _ _ _ (by decide)]

/-- Witness for C9 at a keyword mapping carrying none of the optional
fields (only an unrelated key). -/
theorem system_prompt_defaults_witness :
    ([("other", "z")].find? (fun kv => kv.1 == "name") = none)
    ∧ system_prompt [("other", "z")] =
        system_prompt (("name", "Unknown Person") :: ("summary", "") ::
          ("linkedin", "") :: [("other", "z")]) :=
  ⟨by decide,
   system_prompt_defaults [("other", "z")] (by decide) (by decide) (by decide)⟩

theorem finalText_append_single (l : List Msg) (a : Msg) :
    finalText (l ++ [a]) = if scanHit a then a.content else finalText l := by
  unfold finalText
  rw [List.reverse_append]
  cases h : scanHit a <;> simp [List.find?_cons, h]

theorem finalText_append_skips (l ts : List Msg) (h : ∀ t ∈ ts, scanHit t = false) :
    finalText (l ++ ts) = finalText l := by
  induction ts generalizing l with
  | nil => simp
  | cons t ts ih =>
    have hsplit : l ++ t :: ts = (l ++ [t]) ++ ts := by simp
    rw [hsplit, ih _ (fun x hx => h x (List.mem_cons_of_mem _ hx)), finalText_append_single,
      h t (List.mem_cons_self t ts)]
    simp

theorem finalText_eq_empty (l : List Msg) (h : ∀ m ∈ l, scanHit m = false) :
    finalText l = "" := by
  unfold finalText
  have hn : l.reverse.find? scanHit = none := by
    rw [List.find?_eq_none]
    intro x hx
    simp [h x (List.mem_reverse.mp hx)]
  rw [hn]

theorem find?_eq_head?_filter (p : Msg → Bool) (l : List Msg) :
    l.find? p = (l.filter p).head? := by
  induction l with
  | nil => simp
  | cons a t ih =>
    cases h : p a
    · rw [List.find?_cons_of_neg _ (by simp [h]), List.filter_cons_of_neg (by simp [h]), ih]
    · rw [List.find?_cons_of_pos _ h, List.filter_cons_of_pos h, List.head?_cons]

theorem handle_tool_calls_roles (loads : String → Except String PyDict)
    (registry : String → Option ToolFn) (tool_calls : List ToolCallReq) :
    ∀ t ∈ handle_tool_calls loads registry tool_calls, t.role = "tool" := by
  intro t ht
  rcases List.mem_map.mp ht with ⟨tc, _, rfl⟩
  rfl

theorem chatLoop_trace_spec (M : Nat) (loads : String → Except String PyDict)
    (registry : String → Option ToolFn) (model : Nat → Response) :
    ∀ messages tool_turns req,
      List.Chain' (· ≤ ·)
        (tool_turns :: (chatLoop M loads registry model messages tool_turns req).2.1)
      ∧ (chatLoop M loads registry model messages tool_turns req).2.2.length + 1 =
          (chatLoop M loads registry model messages tool_turns req).2.1.length
      ∧ (∀ j, j < (chatLoop M loads registry model messages tool_turns req).2.2.length →
          (chatLoop M loads registry model messages tool_turns req).2.2.getD j [] =
            (model (req + j)).tool_calls)
      ∧ (∀ i, M < (chatLoop M loads registry model messages tool_turns req).2.1.getD i 0 →
          i + 1 = (chatLoop M loads registry model messages tool_turns req).2.1.length)
      ∧ (chatLoop M loads registry model messages tool_turns req).2.2.length ≤ M - tool_turns := by
  intro messages tool_turns req
  induction messages, tool_turns, req using chatLoop.induct M loads registry model with
  | case1 messages tool_turns req r hfin hex =>
    rw [chatLoop, if_pos hfin, dif_pos hex]
    refine ⟨by simp [List.chain'_cons], by simp, by simp, ?_, by simp⟩
    intro i hM
    cases i with
    | zero => simp
    | succ i' => simp [List.getD] at hM
  | case2 messages tool_turns req r msgs hfin hex ih =>
    have hm : msgs = messages ++ [assistantMsgOf (model req)] := rfl
    have hr : r = model req := rfl
    rw [hm, hr] at ih
    rw [chatLoop, if_pos hfin, dif_neg hex]
    simp only [List.append_assoc, List.singleton_append] at ih ⊢
    set rest := chatLoop M loads registry model
      (messages ++ assistantMsgOf (model req) :: handle_tool_calls loads registry (model req).tool_calls)
      (tool_turns + 1) (req + 1) with hrest
    obtain ⟨ih1, ih2, ih3, ih4, ih5⟩ := ih
    refine ⟨List.chain'_cons.mpr ⟨by omega, ih1⟩,
      by simp only [List.length_cons]; omega, ?_, ?_, ?_⟩
    · intro j hj
      simp only [List.length_cons] at hj
      cases j with
      | zero => simp
      | succ j' =>
        rw [List.getD_cons_succ, ih3 j' (by omega), Nat.add_assoc, Nat.add_comm 1 j']
    · intro i hM
      cases i with
      | zero =>
        rw [List.getD_cons_zero] at hM
        omega
      | succ i' =>
        rw [List.getD_cons_succ] at hM
        have := ih4 i' hM
        simp only [List.length_cons]
        omega
    · simp only [List.length_cons]
      omega
  | case3 messages tool_turns req r hfin =>
    rw [chatLoop, if_neg hfin]
    refine ⟨by simp [List.chain'_cons], by simp, by simp, ?_, by simp⟩
    intro i hM
    cases i with
    | zero => simp
    | succ i' => simp [List.getD] at hM

theorem finalText_cons_skip (a : Msg) (l : List Msg) (h : scanHit a = false) :
    finalText (a :: l) = finalText l := by
  unfold finalText
  rw [List.reverse_cons, List.find?_append]
  simp [List.find?, h]

/-- Modelled from the claim's words (C10): the content of the most recent
caller-supplied history assistant message whose content has a
non-whitespace character, verbatim; the empty string when no such message
exists. -/
def claimedFallbackText (history : List Msg) : String :=
  match (history.filter scanHit).getLast? with
  | some m => m.content
  | none => ""

theorem finalText_eq_claimedFallbackText (l : List Msg) :
    finalText l = claimedFallbackText l := by
  unfold finalText claimedFallbackText
  rw [find?_eq_head?_filter, List.filter_reverse, List.head?_reverse]

theorem chatLoop_last_msg (M : Nat) (loads : String → Except String PyDict)
    (registry : String → Option ToolFn) (model : Nat → Response) :
    ∀ messages tool_turns req,
      (model (req + ((chatLoop M loads registry model messages tool_turns req).2.1.length - 1))).finish ≠ "tool_calls" →
      ∃ pre, (chatLoop M loads registry model messages tool_turns req).1 =
        pre ++ [assistantMsgOf
          (model (req + ((chatLoop M loads registry model messages tool_turns req).2.1.length - 1)))] := by
  intro messages tool_turns req
  induction messages, tool_turns, req using chatLoop.induct M loads registry model with
  | case1 messages tool_turns req r hfin hex =>
    intro h
    rw [chatLoop, if_pos hfin, dif_pos hex] at h
    simp only [List.length_cons, List.length_nil, Nat.add_sub_cancel, Nat.add_zero] at h
    exact absurd hfin (by simpa using h)
  | case2 messages tool_turns req r msgs hfin hex ih =>
    intro h
    have hm : msgs = messages ++ [assistantMsgOf (model req)] := rfl
    have hr : r = model req := rfl
    rw [hm, hr] at ih
    rw [chatLoop, if_pos hfin, dif_neg hex] at h ⊢
    simp only [List.append_assoc, List.singleton_append] at ih h ⊢
    set rest := chatLoop M loads registry model
      (messages ++ assistantMsgOf (model req) :: handle_tool_calls loads registry (model req).tool_calls)
      (tool_turns + 1) (req + 1) with hrest
    have htr := (chatLoop_trace_spec M loads registry model
      (messages ++ assistantMsgOf (model req) :: handle_tool_calls loads registry (model req).tool_calls)
      (tool_turns + 1) (req + 1)).2.1
    rw [← hrest] at htr
    simp only [List.length_cons, Nat.add_sub_cancel] at h ⊢
    have hidx : req + 1 + (rest.2.1.length - 1) = req + rest.2.1.length := by omega
    obtain ⟨pre, hpre⟩ := ih (by rw [hidx]; exact h)
    exact ⟨pre, by rw [hpre, hidx]⟩
  | case3 messages tool_turns req r hfin =>
    intro _
    rw [chatLoop, if_neg hfin]
    exact ⟨messages, by simp⟩

theorem chatLoop_finalText (M : Nat) (loads : String → Except String PyDict)
    (registry : String → Option ToolFn) (model : Nat → Response)
    (hws : ∀ i, pyStrip (model i).content = "") :
    ∀ messages tool_turns req,
      finalText (chatLoop M loads registry model messages tool_turns req).1 =
        finalText messages := by
  intro messages tool_turns req
  induction messages, tool_turns, req using chatLoop.induct M loads registry model with
  | case1 messages tool_turns req r hfin hex =>
    rw [chatLoop, if_pos hfin, dif_pos hex, finalText_append_single]
    simp [scanHit, assistantMsgOf, hws req]
  | case2 messages tool_turns req r msgs hfin hex ih =>
    have hm : msgs = messages ++ [assistantMsgOf (model req)] := rfl
    have hr : r = model req := rfl
    rw [hm, hr] at ih
    rw [chatLoop, if_pos hfin, dif_neg hex]
    simp only [List.append_assoc, List.singleton_append] at ih ⊢
    have htools : ∀ t ∈ handle_tool_calls loads registry (model req).tool_calls,
        scanHit t = false := by
      intro t ht
      have hrole := handle_tool_calls_roles loads registry _ t ht
      simp [scanHit, hrole]
    calc finalText (chatLoop M loads registry model
          (messages ++ assistantMsgOf (model req) :: handle_tool_calls loads registry (model req).tool_calls)
          (tool_turns + 1) (req + 1)).1
        = finalText (messages ++ assistantMsgOf (model req) ::
            handle_tool_calls loads registry (model req).tool_calls) := ih
      _ = finalText ((messages ++ [assistantMsgOf (model req)]) ++
            handle_tool_calls loads registry (model req).tool_calls) := by simp
      _ = finalText (messages ++ [assistantMsgOf (model req)]) :=
            finalText_append_skips _ _ htools
      _ = finalText messages := by
            rw [finalText_append_single]
            simp [scanHit, assistantMsgOf, hws req]
  | case3 messages tool_turns req r hfin =>
    rw [chatLoop, if_neg hfin, finalText_append_single]
    simp [scanHit, assistantMsgOf, hws req]

/-- C1: within one `chat` invocation (a `chatLoop` run from counter 0) the
tool-turn counter is monotonically non-decreasing (first conjunct: the
trace of its per-iteration values, from the initial 0, is a `≤`-chain);
there is exactly one more loop iteration than dispatched rounds, so the
final iteration — which the fourth conjunct shows is the only one whose
counter can exceed the maximum — dispatches none of the tool invocations
of its response, and no later iteration exists to dispatch anything
further; the rounds actually dispatched are exactly the tool-call
requests of the first responses, in order; at most `M` rounds are ever
dispatched; and the configured default for the maximum is 8. Termination
is definitional: `chatLoop` is a total function. -/
theorem chat_tool_turn_budget (M : Nat) (loads : String → Except String PyDict)
    (registry : String → Option ToolFn) (model : Nat → Response)
    (systemPrompt message : String) (history : List Msg) :
    List.Chain' (· ≤ ·)
      (0 :: (chatLoop M loads registry model (chatMessages systemPrompt history message) 0 0).2.1)
    ∧ (chatLoop M loads registry model (chatMessages systemPrompt history message) 0 0).2.2.length + 1 =
        (chatLoop M loads registry model (chatMessages systemPrompt history message) 0 0).2.1.length
    ∧ (∀ j, j < (chatLoop M loads registry model (chatMessages systemPrompt history message) 0 0).2.2.length →
        (chatLoop M loads registry model (chatMessages systemPrompt history message) 0 0).2.2.getD j [] =
          (model j).tool_calls)
    ∧ (∀ i, M < (chatLoop M loads registry model (chatMessages systemPrompt history message) 0 0).2.1.getD i 0 →
        i + 1 = (chatLoop M loads registry model (chatMessages systemPrompt history message) 0 0).2.1.length)
    ∧ (chatLoop M loads registry model (chatMessages systemPrompt history message) 0 0).2.2.length ≤ M
    ∧ defaultMaxToolTurns = 8 := by
  obtain ⟨h1, h2, h3, h4, h5⟩ :=
    chatLoop_trace_spec M loads registry model (chatMessages systemPrompt history message) 0 0
  exact ⟨h1, h2, fun j hj => by simpa using h3 j hj, h4, by simpa using h5, rfl⟩

/-- C8: for a caller history whose messages all have role `"user"` or
`"assistant"`, the message list assembled (and sent with the first model
request) is exactly one system message, then the prior history, then the
new user message, in that order; its head is the system message and it
contains exactly one message with role `"system"`. -/
theorem chat_message_assembly (systemPrompt message : String) (history : List Msg)
    (hroles : ∀ m ∈ history, m.role = "user" ∨ m.role = "assistant") :
    chatMessages systemPrompt history message =
      systemMsg systemPrompt :: (history ++ [userMsg message])
    ∧ (chatMessages systemPrompt history message).head? = some (systemMsg systemPrompt)
    ∧ (chatMessages systemPrompt history message).countP (fun m => m.role == "system") = 1 := by
  refine ⟨by simp [chatMessages], by simp [chatMessages], ?_⟩
  have hzero : history.countP (fun m => m.role == "system") = 0 := by
    rw [List.countP_eq_zero]
    intro m hm
    rcases hroles m hm with h | h <;> simp [h]
  simp [chatMessages, systemMsg, userMsg, List.countP_append, List.countP_cons, hzero]

/-- Witness for C8 at a concrete two-message history. -/
theorem chat_message_assembly_witness :
    (∀ m ∈ [Msg.mk "user" "q1" [] "", Msg.mk "assistant" "a1" [] ""],
      m.role = "user" ∨ m.role = "assistant")
    ∧ (chatMessages "persona" [Msg.mk "user" "q1" [] "", Msg.mk "assistant" "a1" [] ""] "q2").countP
        (fun m => m.role == "system") = 1 :=
  ⟨by decide,
   (chat_message_assembly "persona" "q2" [Msg.mk "user" "q1" [] "", Msg.mk "assistant" "a1" [] ""]
     (by decide)).2.2⟩

/-- C7: with `max_tool_turns = 1` and a model whose every response
requests tool calls, the loop runs exactly two iterations: the first
response's round is dispatched (and only it), one further model request is
issued, and the loop then stops with counter trace `[1, 2]`; the final
message list is the assembled list, the first assistant message, its tool
results and the second assistant message; and `chat` returns the backward
scan of that list — the last assistant text with a non-whitespace
character ever seen there, or the empty string if none was produced. -/
theorem chat_one_turn (loads : String → Except String PyDict)
    (registry : String → Option ToolFn) (model : Nat → Response)
    (systemPrompt message : String) (history : List Msg)
    (h : ∀ k, (model k).finish = "tool_calls") :
    chatLoop 1 loads registry model (chatMessages systemPrompt history message) 0 0 =
      (chatMessages systemPrompt history message ++ [assistantMsgOf (model 0)] ++
         handle_tool_calls loads registry (model 0).tool_calls ++ [assistantMsgOf (model 1)],
       [1, 2], [(model 0).tool_calls])
    ∧ chat 1 loads registry model systemPrompt message history =
      finalText (chatMessages systemPrompt history message ++ [assistantMsgOf (model 0)] ++
         handle_tool_calls loads registry (model 0).tool_calls ++ [assistantMsgOf (model 1)]) := by
  have hstep : chatLoop 1 loads registry model (chatMessages systemPrompt history message) 0 0 =
      (chatMessages systemPrompt history message ++ [assistantMsgOf (model 0)] ++
         handle_tool_calls loads registry (model 0).tool_calls ++ [assistantMsgOf (model 1)],
       [1, 2], [(model 0).tool_calls]) := by
    rw [chatLoop, if_pos (h 0), dif_neg (by omega)]
    rw [chatLoop, if_pos (h 1), dif_pos (by omega)]
  exact ⟨hstep, by unfold chat; rw [hstep]⟩

set_option maxRecDepth 4000 in
/-- C6 counterexample: a run whose single response has finish reason
`"stop"` and the non-empty text content `" "` (one space). The claim
requires `chat` to return exactly that text, but the final scan strips
content, treats the whitespace-only message as empty, and `chat` returns
`""` instead. -/
theorem chat_stop_whitespace_counterexample :
    chat 8 failingLoads (fun _ => none) (fun _ => ⟨"stop", " ", []⟩) "persona" "hi" [] = ""
    ∧ (" " : String) ≠ "" := by
  constructor
  · simp [chat, chatLoop, chatMessages]
    decide
  · decide

/-- C6 (amended): whenever the response that ends the loop has finish
reason `"stop"` and its text content contains a non-whitespace character,
`chat` returns exactly that content; and whenever no assistant message in
the final list has non-empty text content, `chat` returns the empty
string. (The response ending the loop is the one answering the last
request, request number `trace length - 1`.) -/
theorem chat_stop_returns_text (M : Nat) (loads : String → Except String PyDict)
    (registry : String → Option ToolFn) (model : Nat → Response)
    (systemPrompt message : String) (history : List Msg) :
    ((model ((chatLoop M loads registry model (chatMessages systemPrompt history message) 0 0).2.1.length - 1)).finish = "stop" →
      pyStrip (model ((chatLoop M loads registry model (chatMessages systemPrompt history message) 0 0).2.1.length - 1)).content ≠ "" →
      chat M loads registry model systemPrompt message history =
        (model ((chatLoop M loads registry model (chatMessages systemPrompt history message) 0 0).2.1.length - 1)).content)
    ∧ ((∀ m ∈ (chatLoop M loads registry model (chatMessages systemPrompt history message) 0 0).1,
          m.role = "assistant" → m.content = "") →
        chat M loads registry model systemPrompt message history = "") := by
  constructor
  · intro hstop hne
    have hterm : (model (0 + ((chatLoop M loads registry model
        (chatMessages systemPrompt history message) 0 0).2.1.length - 1))).finish ≠ "tool_calls" := by
      rw [Nat.zero_add, hstop]
      decide
    obtain ⟨pre, hpre⟩ :=
      chatLoop_last_msg M loads registry model (chatMessages systemPrompt history message) 0 0 hterm
    rw [Nat.zero_add] at hpre
    unfold chat
    rw [hpre, finalText_append_single]
    simp [scanHit, assistantMsgOf, hne]
  · intro hall
    unfold chat
    apply finalText_eq_empty
    intro m hm
    by_cases hrole : m.role = "assistant"
    · have hc := hall m hm hrole
      simp [scanHit, hrole, hc, show pyStrip "" = "" from rfl]
    · simp [scanHit, hrole]

set_option maxRecDepth 4000 in
/-- Witness for the amended C6: a stop response with real text is returned
verbatim; a run producing no assistant text returns the empty string. -/
theorem chat_stop_returns_text_witness :
    chat 8 failingLoads (fun _ => none) (fun _ => ⟨"stop", "Hello!", []⟩) "persona" "hi" [] = "Hello!"
    ∧ chat 8 failingLoads (fun _ => none) (fun _ => ⟨"stop", "", []⟩) "persona" "hi" [] = "" :=
  ⟨(chat_stop_returns_text 8 failingLoads (fun _ => none)
      (fun _ => ⟨"stop", "Hello!", []⟩) "persona" "hi" []).1 rfl (by decide),
   (chat_stop_returns_text 8 failingLoads (fun _ => none)
      (fun _ => ⟨"stop", "", []⟩) "persona" "hi" []).2 (by simp [chatLoop, chatMessages]; decide)⟩

/-- C10: the final backward scan runs over the whole assembled list, the
caller-supplied history included, and treats whitespace-only content as
empty: when every response of the run has whitespace-only (or empty)
assistant text, `chat` returns the content of the most recent history
assistant message with a non-whitespace character — verbatim, unstripped —
and the empty string exactly when no such message exists
(`claimedFallbackText` is written from the claim's words). -/
theorem chat_history_fallback (M : Nat) (loads : String → Except String PyDict)
    (registry : String → Option ToolFn) (model : Nat → Response)
    (systemPrompt message : String) (history : List Msg)
    (hws : ∀ i, pyStrip (model i).content = "") :
    chat M loads registry model systemPrompt message history = claimedFallbackText history := by
  unfold chat
  rw [chatLoop_finalText M loads registry model hws]
  have hu : scanHit (userMsg message) = false := by simp [scanHit, userMsg]
  have hs : scanHit (systemMsg systemPrompt) = false := by simp [scanHit, systemMsg]
  unfold chatMessages
  rw [finalText_append_single, hu, if_neg Bool.false_ne_true, finalText_cons_skip _ _ hs,
    finalText_eq_claimedFallbackText]

/-- Witness for C10: whitespace-only model output; the history holds a
user message, an assistant message with real text and a whitespace-only
assistant message; `chat` falls back to the real text, unstripped. -/
theorem chat_history_fallback_witness :
    (∀ i : Nat, pyStrip ((fun _ : Nat => Response.mk "stop" " " []) i).content = "")
    ∧ chat 8 failingLoads (fun _ => none) (fun _ => Response.mk "stop" " " []) "persona" "hi"
        [Msg.mk "user" "q" [] "", Msg.mk "assistant" "  earlier  " [] "",
         Msg.mk "assistant" " " [] ""] =
      claimedFallbackText
        [Msg.mk "user" "q" [] "", Msg.mk "assistant" "  earlier  " [] "",
         Msg.mk "assistant" " " [] ""]
    ∧ claimedFallbackText
        [Msg.mk "user" "q" [] "", Msg.mk "assistant" "  earlier  " [] "",
         Msg.mk "assistant" " " [] ""] = "  earlier  " :=
  ⟨by intro i; show pyStrip " " = ""; decide,
   chat_history_fallback 8 failingLoads (fun _ => none) (fun _ => Response.mk "stop" " " [])
     "persona" "hi"
     [Msg.mk "user" "q" [] "", Msg.mk "assistant" "  earlier  " [] "",
      Msg.mk "assistant" " " [] ""]
     (by intro i; show pyStrip " " = ""; decide),
   by decide⟩

/-- The always-requesting-tools model used by the C7 witness. -/
def wModelTools : Nat → Response :=
  fun _ => ⟨"tool_calls", "", [ToolCallReq.mk "id1" "t" "x"]⟩

/-- Witness for C7 at a concrete model, registry and decode oracle. -/
theorem chat_one_turn_witness :
    (∀ k, (wModelTools k).finish = "tool_calls")
    ∧ chatLoop 1 failingLoads (fun _ => none) wModelTools (chatMessages "persona" [] "hi") 0 0 =
      (chatMessages "persona" [] "hi" ++ [assistantMsgOf (wModelTools 0)] ++
         handle_tool_calls failingLoads (fun _ => none) (wModelTools 0).tool_calls ++
         [assistantMsgOf (wModelTools 1)],
       [1, 2], [(wModelTools 0).tool_calls]) :=
  ⟨fun _ => rfl,
   (chat_one_turn failingLoads (fun _ => none) wModelTools "persona" "hi" [] (fun _ => rfl)).1⟩
